import Mathlib

/-!
Shallow embedding of the polytrader order-book tracker.

The repository contains two copies of the OrderBook class:
namespace OB models src/agents/trackers/order_book.py and namespace MT models
the copy embedded in src/agents/trackers/market_tracker.py.  The websocket
message handler of MarketChannel (market_tracker.py) is modelled at the end.

Feed prices and sizes arrive as decimal strings and are parsed with float();
they are modelled as exact rationals.  A pandas DataFrame indexed by price is
modelled as a list of (price, size) pairs in row order.  The per-timestamp
snapshot history (a timestamp-keyed dict of DataFrames in market_tracker.py, a
timestamp-columned DataFrame in order_book.py) is modelled as an association
list from timestamp to the ladder recoverable at that timestamp.
-/

/-- A ladder: the rows of a price-indexed DataFrame, in row order. -/
abbrev Ladder := List (ℚ × ℚ)

/-- Exact-price lookup of the size resting at a price key (df.loc access on a
price-indexed frame with that unique key). -/
def lookupPrice : Ladder → ℚ → Option ℚ
  | [], _ => none
  | e :: rest, p => if e.1 = p then some e.2 else lookupPrice rest p

/-- df.loc[price] = size : overwrite every row carrying that price key,
otherwise append a new row at the end. -/
def locSet (L : Ladder) (p s : ℚ) : Ladder :=
  if p ∈ L.map Prod.fst then
    L.map (fun e => if e.1 = p then (p, s) else e)
  else
    L ++ [(p, s)]

/-- df.drop(index=price, errors=ignore) : remove every row at that price,
a no-op when the price is absent. -/
def dropIndex (L : Ladder) (p : ℚ) : Ladder :=
  L.filter (fun e => decide (e.1 ≠ p))

/-- Row order used by sort_index(ascending=True): compare price keys. -/
def leKey (a b : ℚ × ℚ) : Prop := a.1 ≤ b.1

/-- Row order used by sort_index(ascending=False): compare price keys. -/
def geKey (a b : ℚ × ℚ) : Prop := b.1 ≤ a.1

instance : DecidableRel leKey := fun a b => inferInstanceAs (Decidable (a.1 ≤ b.1))

instance : DecidableRel geKey := fun a b => inferInstanceAs (Decidable (b.1 ≤ a.1))

instance : IsTotal (ℚ × ℚ) leKey := ⟨fun a b => le_total a.1 b.1⟩

instance : IsTrans (ℚ × ℚ) leKey := ⟨fun _ _ _ h1 h2 => le_trans h1 h2⟩

instance : IsTotal (ℚ × ℚ) geKey := ⟨fun a b => le_total b.1 a.1⟩

instance : IsTrans (ℚ × ℚ) geKey := ⟨fun _ _ _ h1 h2 => le_trans h2 h1⟩

/-- df.sort_index(inplace=True). -/
def sortAsc (L : Ladder) : Ladder := List.insertionSort leKey L

/-- df.sort_index(ascending=False, inplace=True). -/
def sortDesc (L : Ladder) : Ladder := List.insertionSort geKey L

/-- index.min() : the least price key, none on an empty index. -/
def idxMin : List ℚ → Option ℚ
  | [] => none
  | p :: ps => some (ps.foldl min p)

/-- index.max() : the greatest price key, none on an empty index. -/
def idxMax : List ℚ → Option ℚ
  | [] => none
  | p :: ps => some (ps.foldl max p)

/-- A python/numpy float scalar as far as the model needs it: either an exact
value or NaN, which pandas produces as the min/max of an empty selection. -/
inductive PyFloat
  | NaN
  | val (q : ℚ)
deriving DecidableEq, Repr

/-- Python dict / DataFrame-column lookup by exact string key. -/
def dictGet {α : Type} : List (String × α) → String → Option α
  | [], _ => none
  | e :: rest, k => if e.1 = k then some e.2 else dictGet rest k

/-- Python dict assignment d[k] = v : overwrite in place, else append. -/
def dictInsert {α : Type} : List (String × α) → String → α → List (String × α)
  | [], k, v => [(k, v)]
  | e :: rest, k, v => if e.1 = k then (k, v) :: rest else e :: dictInsert rest k v

/-- A book event, already parsed: level lists in feed order, sizes exact. -/
structure BookMsg where
  event_type : String
  asks : Ladder
  bids : Ladder
  timestamp : String
deriving DecidableEq, Repr

/-- One triple of a price_change event.  The side is kept as the raw string:
the code compares it against "SELL" and treats anything else as a bid update. -/
structure Change where
  price : ℚ
  side : String
  size : ℚ
deriving DecidableEq, Repr

/-- A price_change event. -/
structure PriceChangeMsg where
  event_type : String
  changes : List Change
  timestamp : String
deriving DecidableEq, Repr

/-- One step of the loop over message[changes] shared verbatim by both
OrderBook copies: size 0 drops the level, any other size overwrites it. -/
def applyChange (lads : Ladder × Ladder) (c : Change) : Ladder × Ladder :=
  if c.side = "SELL" then
    if c.size = 0 then (dropIndex lads.1 c.price, lads.2)
    else (locSet lads.1 c.price c.size, lads.2)
  else
    if c.size = 0 then (lads.1, dropIndex lads.2 c.price)
    else (lads.1, locSet lads.2 c.price c.size)

namespace OB

/-- State of the OrderBook class of order_book.py.  The history DataFrames are
modelled column-wise: each stored column is the timestamp together with the
ladder recoverable from that column by dropna (an outer join on the price index
adds NaN rows for prices absent from the joined snapshot, and dropna removes
exactly those again; the sort_index after the join only reorders rows). -/
structure OrderBook where
  asks : Ladder
  bids : Ladder
  asks_history : List (String × Ladder)
  bids_history : List (String × Ladder)
deriving DecidableEq, Repr

/-- The freshly constructed book: empty ladders, empty histories. -/
def init : OrderBook := { asks := [], bids := [], asks_history := [], bids_history := [] }

/-- DataFrame.empty is true iff the frame has no rows; the history frame has a
row for every price ever joined in, so it is nonempty iff some stored column
carries a nonempty ladder. -/
def histHasRows (h : List (String × Ladder)) : Bool :=
  h.any (fun c => !c.2.isEmpty)

/-- One side of save_snapshot in order_book.py: when the history already has
rows, join the current ladder as a new column, skipping entirely when the
ladder is empty; when the history has no rows, replace it wholesale by the one
new column (discarding any previous rowless columns). -/
def saveSide (h : List (String × Ladder)) (cur : Ladder) (ts : String) : List (String × Ladder) :=
  if histHasRows h then
    if !cur.isEmpty then h ++ [(ts, cur)] else h
  else
    [(ts, cur)]

/-- save_snapshot of order_book.py. -/
def OrderBook.save_snapshot (ob : OrderBook) (ts : String) : OrderBook :=
  { ob with
      asks_history := saveSide ob.asks_history ob.asks ts,
      bids_history := saveSide ob.bids_history ob.bids ts }

/-- update_from_book of order_book.py.  It replaces both ladders by the level
lists of the message verbatim: no sorting, no filtering of sizes.  A message
with an empty asks or bids list makes pd.DataFrame build a frame without the
price and size columns, and selecting those columns raises KeyError, modelled
as none. -/
def OrderBook.update_from_book (ob : OrderBook) (m : BookMsg) : Option OrderBook :=
  if m.event_type ≠ "book" then some ob
  else if m.asks.isEmpty || m.bids.isEmpty then none
  else some (OrderBook.save_snapshot { ob with asks := m.asks, bids := m.bids } m.timestamp)

/-- update_from_price_change of order_book.py: fold the changes over both
ladders, then re-sort asks ascending and bids descending, then snapshot. -/
def OrderBook.update_from_price_change (ob : OrderBook) (m : PriceChangeMsg) : OrderBook :=
  if m.event_type ≠ "price_change" then ob
  else
    let ab := m.changes.foldl applyChange (ob.asks, ob.bids)
    OrderBook.save_snapshot { ob with asks := sortAsc ab.1, bids := sortDesc ab.2 } m.timestamp

/-- get_best_ask of order_book.py, as a function of the ask ladder: on a
nonempty frame, the min of the price index restricted to rows of positive
size; that min is NaN when the restriction is empty.  Only an empty frame
returns None. -/
def bestAskOfLadder (L : Ladder) : Option PyFloat :=
  if !L.isEmpty then
    match idxMin ((L.filter (fun e => decide (0 < e.2))).map Prod.fst) with
    | some m => some (PyFloat.val m)
    | none => some PyFloat.NaN
  else none

/-- get_best_bid of order_book.py, as a function of the bid ladder. -/
def bestBidOfLadder (L : Ladder) : Option PyFloat :=
  if !L.isEmpty then
    match idxMax ((L.filter (fun e => decide (0 < e.2))).map Prod.fst) with
    | some m => some (PyFloat.val m)
    | none => some PyFloat.NaN
  else none

/-- get_best_ask of order_book.py. -/
def OrderBook.get_best_ask (ob : OrderBook) : Option PyFloat := bestAskOfLadder ob.asks

/-- get_best_bid of order_book.py. -/
def OrderBook.get_best_bid (ob : OrderBook) : Option PyFloat := bestBidOfLadder ob.bids

end OB

/-- Python truthiness of the value best_ask/best_bid hands to get_spread:
None is falsy, the float 0.0 is falsy, every other float (NaN included) is
truthy. -/
def truthyOpt : Option PyFloat → Bool
  | none => false
  | some PyFloat.NaN => true
  | some (PyFloat.val q) => decide (q ≠ 0)

/-- Subscripting a python/numpy float scalar, as in best_ask[0]: a float is
not subscriptable, so this always raises TypeError. -/
def floatSubscript (_x : PyFloat) (_i : ℕ) : Except String ℚ :=
  Except.error "TypeError: numpy.float64 object is not subscriptable"

namespace OB

/-- get_spread of order_book.py: when both best values are truthy it evaluates
best_ask[0] - best_bid[0]; otherwise it returns None.  The error branch of the
Except records the exception that the subscript raises. -/
def OrderBook.get_spread (ob : OrderBook) : Except String (Option ℚ) :=
  let best_ask := ob.get_best_ask
  let best_bid := ob.get_best_bid
  if truthyOpt best_ask && truthyOpt best_bid then
    match best_ask, best_bid with
    | some a, some b => do
        let x ← floatSubscript a 0
        let y ← floatSubscript b 0
        pure (some (x - y))
    | _, _ => pure none
  else pure none

/-- get_order_book_at_timestamp of order_book.py: None, None unless the
timestamp is a column of both histories, else the two dropna columns. -/
def OrderBook.get_order_book_at_timestamp (ob : OrderBook) (ts : String) :
    Option Ladder × Option Ladder :=
  if (ob.asks_history.map Prod.fst).contains ts
      && (ob.bids_history.map Prod.fst).contains ts then
    (dictGet ob.asks_history ts, dictGet ob.bids_history ts)
  else (none, none)

end OB

/-- A sequence of events fed to the book: the two update entry points the
reachability claim quantifies over. -/
inductive Msg
  | book (m : BookMsg)
  | price (m : PriceChangeMsg)
deriving DecidableEq, Repr

namespace OB

/-- Apply one event through the matching update method. -/
def applyMsg (ob : OrderBook) : Msg → Option OrderBook
  | Msg.book m => ob.update_from_book m
  | Msg.price m => some (ob.update_from_price_change m)

/-- Apply a whole event sequence, stopping at the first raised exception. -/
def applyMsgs (ob : OrderBook) : List Msg → Option OrderBook
  | [] => some ob
  | m :: ms =>
    match applyMsg ob m with
    | none => none
    | some ob2 => applyMsgs ob2 ms

end OB

namespace MT

/-- State of the OrderBook copy in market_tracker.py.  Its histories are plain
python dicts from timestamp to a DataFrame copy, modelled as association
lists from timestamp to ladder. -/
structure OrderBook where
  asks : Ladder
  bids : Ladder
  asks_history : List (String × Ladder)
  bids_history : List (String × Ladder)
deriving DecidableEq, Repr

/-- The freshly constructed book. -/
def init : OrderBook := { asks := [], bids := [], asks_history := [], bids_history := [] }

/-- save_snapshot of market_tracker.py: store a copy of each ladder under the
timestamp, unconditionally. -/
def OrderBook.save_snapshot (ob : OrderBook) (ts : String) : OrderBook :=
  { ob with
      asks_history := dictInsert ob.asks_history ts ob.asks,
      bids_history := dictInsert ob.bids_history ts ob.bids }

/-- update_from_book of market_tracker.py (same body as order_book.py up to
the snapshot representation). -/
def OrderBook.update_from_book (ob : OrderBook) (m : BookMsg) : Option OrderBook :=
  if m.event_type ≠ "book" then some ob
  else if m.asks.isEmpty || m.bids.isEmpty then none
  else some (OrderBook.save_snapshot { ob with asks := m.asks, bids := m.bids } m.timestamp)

/-- update_from_price_change of market_tracker.py. -/
def OrderBook.update_from_price_change (ob : OrderBook) (m : PriceChangeMsg) : OrderBook :=
  if m.event_type ≠ "price_change" then ob
  else
    let ab := m.changes.foldl applyChange (ob.asks, ob.bids)
    OrderBook.save_snapshot { ob with asks := sortAsc ab.1, bids := sortDesc ab.2 } m.timestamp

/-- get_best_ask of market_tracker.py as a function of the ask ladder: the min
of the whole price index on a nonempty frame, with no size filter. -/
def bestAskOfLadder (L : Ladder) : Option PyFloat :=
  if !L.isEmpty then
    match idxMin (L.map Prod.fst) with
    | some m => some (PyFloat.val m)
    | none => some PyFloat.NaN
  else none

/-- get_best_bid of market_tracker.py as a function of the bid ladder. -/
def bestBidOfLadder (L : Ladder) : Option PyFloat :=
  if !L.isEmpty then
    match idxMax (L.map Prod.fst) with
    | some m => some (PyFloat.val m)
    | none => some PyFloat.NaN
  else none

/-- get_order_book_at_timestamp of market_tracker.py: dict .get on each
history. -/
def OrderBook.get_order_book_at_timestamp (ob : OrderBook) (ts : String) :
    Option Ladder × Option Ladder :=
  (dictGet ob.asks_history ts, dictGet ob.bids_history ts)

/-- clear_history_before of market_tracker.py.  The python loop walks the keys
of asks_history and deletes the pair of entries whose key compares below the
cutoff; every snapshot writes both dicts under the same key, so the loop
deletes from bids_history exactly the keys below the cutoff that asks_history
also holds (a below-cutoff key held by asks_history only would make the second
del raise KeyError, which no reachable state produces). -/
def OrderBook.clear_history_before (ob : OrderBook) (cutoff : String) : OrderBook :=
  { ob with
      asks_history := ob.asks_history.filter (fun e => decide (¬ e.1 < cutoff)),
      bids_history := ob.bids_history.filter (fun e =>
        decide (¬ (e.1 < cutoff ∧ e.1 ∈ ob.asks_history.map Prod.fst))) }

end MT

/-- Python truthiness of the optional timestamp argument of
calculate_vwap_mid_price: None and the empty string are falsy. -/
def tsTruthy : Option String → Bool
  | none => false
  | some s => decide (s ≠ "")

/-- The ask-side VWAP that calculate_vwap_mid_price computes, as a standalone
function: restrict the ladder to prices at most best_ask * (1 + t), then
sum(price * size) / sum(size), guarded against non-positive total volume. -/
def sideVWAPAsks (asks : Ladder) (t : ℚ) : Option ℚ :=
  match idxMin (asks.map Prod.fst) with
  | none => none
  | some best_ask =>
    let valid := asks.filter (fun e => decide (e.1 ≤ best_ask * (1 + t)))
    if !valid.isEmpty then
      let tv := (valid.map (fun e => e.1 * e.2)).sum
      let vol := (valid.map (fun e => e.2)).sum
      if 0 < vol then some (tv / vol) else none
    else none

/-- The bid-side VWAP of calculate_vwap_mid_price as a standalone function:
levels at least best_bid * (1 - t). -/
def sideVWAPBids (bids : Ladder) (t : ℚ) : Option ℚ :=
  match idxMax (bids.map Prod.fst) with
  | none => none
  | some best_bid =>
    let valid := bids.filter (fun e => decide (best_bid * (1 - t) ≤ e.1))
    if !valid.isEmpty then
      let tv := (valid.map (fun e => e.1 * e.2)).sum
      let vol := (valid.map (fun e => e.2)).sum
      if 0 < vol then some (tv / vol) else none
    else none

/-- The final combination step of calculate_vwap_mid_price: average of the two
side VWAPs when both exist, the existing one when only one does, none when
neither does. -/
def combineVWAP : Option ℚ → Option ℚ → Option ℚ
  | some va, some vb => some ((va + vb) / 2)
  | some va, none => some va
  | none, some vb => some vb
  | none, none => none

namespace MT

/-- calculate_vwap_mid_price of market_tracker.py.  A truthy timestamp selects
the snapshot pair from the history dicts, returning None when either .get
misses; then either ladder being empty returns None; the remaining body (best
prices, threshold cutoffs, per-side VWAPs guarded against non-positive volume,
final combination) is factored verbatim into sideVWAPAsks, sideVWAPBids and
combineVWAP, applied here exactly as the source computes them. -/
def OrderBook.calculate_vwap_mid_price (ob : OrderBook) (threshold_pct : ℚ)
    (timestamp : Option String) : Option ℚ :=
  if tsTruthy timestamp then
    match timestamp with
    | some ts =>
      match dictGet ob.asks_history ts, dictGet ob.bids_history ts with
      | some asks, some bids =>
        if asks.isEmpty || bids.isEmpty then none
        else combineVWAP (sideVWAPAsks asks threshold_pct) (sideVWAPBids bids threshold_pct)
      | _, _ => none
    | none => none
  else
    if ob.asks.isEmpty || ob.bids.isEmpty then none
    else combineVWAP (sideVWAPAsks ob.asks threshold_pct) (sideVWAPBids ob.bids threshold_pct)

end MT

/-! The websocket message handler of MarketChannel in market_tracker.py,
modelled as the list of observable actions the handler performs on a trace of
received frames.  The action type has a constructor for a reconnection
attempt so that the absence of any reconnection logic in the handler is a
statement about the model rather than about its vocabulary. -/

namespace Chan

/-- A decoded element of a frame, after ast.literal_eval: a dict that may or
may not carry an asset_id, or a non-dict value. -/
inductive PyData
  | dict (asset_id : Option String) (body : String)
  | nonDict
deriving DecidableEq, Repr

/-- One received text frame: unparsable, a single object, or a batch list. -/
inductive Frame
  | parseFail
  | single (d : PyData)
  | batch (ds : List PyData)
deriving DecidableEq, Repr

/-- One outcome of awaiting websocket.recv(): a frame, or the
ConnectionClosed exception. -/
inductive RecvEvent
  | frame (f : Frame)
  | closed
deriving DecidableEq, Repr

/-- A registered callback: its identity and whether it raises on a given
event. -/
structure Callback where
  name : String
  fails : PyData → Bool

/-- An observable action of the message handler. -/
inductive Action
  | invoke (cb outcome : String) (d : PyData)
  | cbError (cb : String) (d : PyData)
  | logParseError
  | logClosed
  | reconnectAttempt (k : ℕ) (delaySeconds : ℚ)
deriving DecidableEq, Repr

/-- The MarketChannel state the handler reads: the running flag, the socket,
and the two registries.  The handler never writes any of these. -/
structure Channel where
  running : Bool
  hasSocket : Bool
  id_to_outcome : List (String × String)
  callbacks : List (String × List Callback)

/-- The inner callback loop: every registered callback is invoked in
registration order; a raising callback is caught and logged and the loop
continues with the next one. -/
def dispatchCbs (outc : String) (d : PyData) : List Callback → List Action
  | [] => []
  | cb :: rest =>
    Action.invoke cb.name outc d ::
      ((if cb.fails d then [Action.cbError cb.name d] else []) ++ dispatchCbs outc d rest)

/-- Processing of one decoded element: only dicts carrying an asset_id that
maps to a truthy outcome with a truthy (nonempty) callback list reach the
callback loop. -/
def processData (ch : Channel) : PyData → List Action
  | PyData.nonDict => []
  | PyData.dict none _ => []
  | PyData.dict (some aid) body =>
    match dictGet ch.id_to_outcome aid with
    | none => []
    | some outc =>
      if outc = "" then []
      else
        match dictGet ch.callbacks aid with
        | none => []
        | some cbs => if cbs.isEmpty then [] else dispatchCbs outc (PyData.dict (some aid) body) cbs

/-- Processing of one received frame: a parse failure is logged and the frame
skipped; otherwise each element of the (singleton or batch) list is processed
in order. -/
def processFrame (ch : Channel) : Frame → List Action
  | Frame.parseFail => [Action.logParseError]
  | Frame.single d => processData ch d
  | Frame.batch ds => (ds.map (processData ch)).flatten

/-- The handler loop over a trace of receive outcomes: while running with a
socket, process frames in order; a ConnectionClosed is logged and the loop
exits, leaving the rest of the trace unconsumed and performing nothing else. -/
def runHandler (ch : Channel) : List RecvEvent → List Action
  | [] => []
  | RecvEvent.closed :: _ =>
    if ch.running && ch.hasSocket then [Action.logClosed] else []
  | RecvEvent.frame f :: rest =>
    if ch.running && ch.hasSocket then processFrame ch f ++ runHandler ch rest else []

/-- Recognizer for invocation actions. -/
def isInvoke : Action → Bool
  | Action.invoke _ _ _ => true
  | _ => false

/-- Recognizer for reconnection attempts. -/
def isReconnectAttempt : Action → Bool
  | Action.reconnectAttempt _ _ => true
  | _ => false

end Chan

/-! Spec-side predicates: the ladder invariants the claims quantify over. -/

/-- Price keys strictly ascending down the rows. -/
def strictAscKeys (L : Ladder) : Prop := L.Pairwise (fun a b => a.1 < b.1)

/-- Price keys strictly descending down the rows. -/
def strictDescKeys (L : Ladder) : Prop := L.Pairwise (fun a b => b.1 < a.1)

/-- Every level carries a strictly positive size. -/
def allPos (L : Ladder) : Prop := ∀ e ∈ L, 0 < e.2

/-- No two rows share a price key. -/
def NodupKeys (L : Ladder) : Prop := (L.map Prod.fst).Nodup

/-- The reachable-state invariant of the claim: asks ascending, bids
descending, no level of size at most zero. -/
def BookInv (ob : OB.OrderBook) : Prop :=
  strictAscKeys ob.asks ∧ strictDescKeys ob.bids ∧ allPos ob.asks ∧ allPos ob.bids

/-- Well-formedness under which the invariant is actually preserved: book
events must arrive already sorted, with positive sizes and nonempty level
lists (an empty side raises in update_from_book); price-change events must
carry nonnegative sizes. -/
def wfMsg : Msg → Prop
  | Msg.book m => strictAscKeys m.asks ∧ strictDescKeys m.bids ∧ allPos m.asks ∧
      allPos m.bids ∧ m.asks ≠ [] ∧ m.bids ≠ []
  | Msg.price m => ∀ c ∈ m.changes, 0 ≤ c.size

instance (L : Ladder) : Decidable (NodupKeys L) :=
  inferInstanceAs (Decidable (L.map Prod.fst).Nodup)

instance (L : Ladder) : Decidable (strictAscKeys L) :=
  inferInstanceAs (Decidable (L.Pairwise fun a b : ℚ × ℚ => a.1 < b.1))

instance (L : Ladder) : Decidable (strictDescKeys L) :=
  inferInstanceAs (Decidable (L.Pairwise fun a b : ℚ × ℚ => b.1 < a.1))

instance (L : Ladder) : Decidable (allPos L) :=
  inferInstanceAs (Decidable (∀ e ∈ L, 0 < e.2))

instance (ob : OB.OrderBook) : Decidable (BookInv ob) :=
  inferInstanceAs (Decidable (_ ∧ _ ∧ _ ∧ _))

instance (m : Msg) : Decidable (wfMsg m) := by
  cases m with
  | book b => exact inferInstanceAs (Decidable (_ ∧ _ ∧ _ ∧ _ ∧ _ ∧ _))
  | price p => exact inferInstanceAs (Decidable (∀ c ∈ p.changes, 0 ≤ c.size))

/-! Basic lemmas about the ladder primitives. -/

theorem foldl_min_mem (l : List ℚ) : ∀ a : ℚ, l.foldl min a ∈ a :: l := by
  induction l with
  | nil => intro a; simp
  | cons b t ih =>
    intro a
    have h := ih (min a b)
    simp only [List.foldl_cons]
    rcases List.mem_cons.mp h with h1 | h1
    · rcases min_choice a b with hc | hc
      · exact List.mem_cons.mpr (Or.inl (h1.trans hc))
      · exact List.mem_cons.mpr (Or.inr (List.mem_cons.mpr (Or.inl (h1.trans hc))))
    · exact List.mem_cons.mpr (Or.inr (List.mem_cons.mpr (Or.inr h1)))

theorem foldl_min_le (l : List ℚ) : ∀ a x : ℚ, x ∈ a :: l → l.foldl min a ≤ x := by
  induction l with
  | nil =>
    intro a x hx
    simp only [List.mem_singleton] at hx
    simp [hx]
  | cons b t ih =>
    intro a x hx
    have hacc : t.foldl min (min a b) ≤ min a b := ih (min a b) (min a b) (List.mem_cons_self _ _)
    simp only [List.foldl_cons]
    rcases List.mem_cons.mp hx with h1 | h1
    · rw [h1]; exact le_trans hacc (min_le_left a b)
    · rcases List.mem_cons.mp h1 with h2 | h2
      · rw [h2]; exact le_trans hacc (min_le_right a b)
      · exact ih (min a b) x (List.mem_cons_of_mem _ h2)

theorem foldl_max_mem (l : List ℚ) : ∀ a : ℚ, l.foldl max a ∈ a :: l := by
  induction l with
  | nil => intro a; simp
  | cons b t ih =>
    intro a
    have h := ih (max a b)
    simp only [List.foldl_cons]
    rcases List.mem_cons.mp h with h1 | h1
    · rcases max_choice a b with hc | hc
      · exact List.mem_cons.mpr (Or.inl (h1.trans hc))
      · exact List.mem_cons.mpr (Or.inr (List.mem_cons.mpr (Or.inl (h1.trans hc))))
    · exact List.mem_cons.mpr (Or.inr (List.mem_cons.mpr (Or.inr h1)))

theorem foldl_max_ge (l : List ℚ) : ∀ a x : ℚ, x ∈ a :: l → x ≤ l.foldl max a := by
  induction l with
  | nil =>
    intro a x hx
    simp only [List.mem_singleton] at hx
    simp [hx]
  | cons b t ih =>
    intro a x hx
    have hacc : max a b ≤ t.foldl max (max a b) := ih (max a b) (max a b) (List.mem_cons_self _ _)
    simp only [List.foldl_cons]
    rcases List.mem_cons.mp hx with h1 | h1
    · rw [h1]; exact le_trans (le_max_left a b) hacc
    · rcases List.mem_cons.mp h1 with h2 | h2
      · rw [h2]; exact le_trans (le_max_right a b) hacc
      · exact ih (max a b) x (List.mem_cons_of_mem _ h2)

theorem idxMin_eq_some_mem {l : List ℚ} {m : ℚ} (h : idxMin l = some m) : m ∈ l := by
  cases l with
  | nil => simp [idxMin] at h
  | cons p ps =>
    simp only [idxMin, Option.some.injEq] at h
    exact h ▸ foldl_min_mem ps p

theorem idxMin_eq_some_le {l : List ℚ} {m : ℚ} (h : idxMin l = some m) : ∀ x ∈ l, m ≤ x := by
  cases l with
  | nil => simp [idxMin] at h
  | cons p ps =>
    simp only [idxMin, Option.some.injEq] at h
    exact fun x hx => h ▸ foldl_min_le ps p x hx

theorem idxMax_eq_some_mem {l : List ℚ} {m : ℚ} (h : idxMax l = some m) : m ∈ l := by
  cases l with
  | nil => simp [idxMax] at h
  | cons p ps =>
    simp only [idxMax, Option.some.injEq] at h
    exact h ▸ foldl_max_mem ps p

theorem idxMax_eq_some_ge {l : List ℚ} {m : ℚ} (h : idxMax l = some m) : ∀ x ∈ l, x ≤ m := by
  cases l with
  | nil => simp [idxMax] at h
  | cons p ps =>
    simp only [idxMax, Option.some.injEq] at h
    exact fun x hx => h ▸ foldl_max_ge ps p x hx

theorem lookupPrice_eq_of_mem : ∀ (L : Ladder) (p s : ℚ), NodupKeys L → (p, s) ∈ L →
    lookupPrice L p = some s := by
  intro L
  induction L with
  | nil => intro p s _ hm; simp at hm
  | cons e t ih =>
    intro p s hnd hm
    have hnd2 : e.1 ∉ t.map Prod.fst ∧ NodupKeys t := by
      simpa [NodupKeys, List.nodup_cons] using hnd
    rcases List.mem_cons.mp hm with h1 | h1
    · have he : e = (p, s) := h1.symm
      subst he
      simp [lookupPrice]
    · have hp : p ∈ t.map Prod.fst := List.mem_map.mpr ⟨(p, s), h1, rfl⟩
      have hne : e.1 ≠ p := fun hcontra => hnd2.1 (hcontra ▸ hp)
      simp only [lookupPrice, if_neg hne]
      exact ih p s hnd2.2 h1

theorem locSet_mem (L : Ladder) (p s : ℚ) : (p, s) ∈ locSet L p s := by
  unfold locSet
  by_cases h : p ∈ L.map Prod.fst
  · rw [if_pos h]
    obtain ⟨e, he, hep⟩ := List.mem_map.mp h
    exact List.mem_map.mpr ⟨e, he, by simp [hep]⟩
  · rw [if_neg h]
    simp

theorem locSet_keys_replace (L : Ladder) (p s : ℚ) (h : p ∈ L.map Prod.fst) :
    (locSet L p s).map Prod.fst = L.map Prod.fst := by
  unfold locSet
  rw [if_pos h, List.map_map]
  apply List.map_congr_left
  intro e _
  by_cases hep : e.1 = p
  · simp [hep, Function.comp]
  · simp [hep, Function.comp]

theorem locSet_nodupKeys (L : Ladder) (p s : ℚ) (h : NodupKeys L) : NodupKeys (locSet L p s) := by
  by_cases hp : p ∈ L.map Prod.fst
  · unfold NodupKeys
    rw [locSet_keys_replace L p s hp]
    exact h
  · unfold NodupKeys locSet
    rw [if_neg hp, List.map_append]
    simp only [List.map_cons, List.map_nil]
    exact List.Nodup.append h (List.nodup_singleton p)
      (by simpa [List.disjoint_singleton] using hp)

theorem locSet_allPos (L : Ladder) (p s : ℚ) (hL : allPos L) (hs : 0 < s) :
    allPos (locSet L p s) := by
  intro e he
  unfold locSet at he
  by_cases hp : p ∈ L.map Prod.fst
  · rw [if_pos hp] at he
    obtain ⟨x, hx, hxe⟩ := List.mem_map.mp he
    by_cases hxp : x.1 = p
    · rw [if_pos hxp] at hxe
      rw [← hxe]
      exact hs
    · rw [if_neg hxp] at hxe
      rw [← hxe]
      exact hL x hx
  · rw [if_neg hp] at he
    rcases List.mem_append.mp he with h1 | h1
    · exact hL e h1
    · simp only [List.mem_singleton] at h1
      rw [h1]
      exact hs

theorem dropIndex_allPos (L : Ladder) (p : ℚ) (h : allPos L) : allPos (dropIndex L p) :=
  fun e he => h e (List.mem_of_mem_filter he)

theorem dropIndex_nodupKeys (L : Ladder) (p : ℚ) (h : NodupKeys L) : NodupKeys (dropIndex L p) :=
  List.Nodup.sublist (List.Sublist.map _ (List.filter_sublist L)) h

theorem sortAsc_perm (L : Ladder) : List.Perm (sortAsc L) L := List.perm_insertionSort leKey L

theorem sortDesc_perm (L : Ladder) : List.Perm (sortDesc L) L := List.perm_insertionSort geKey L

theorem nodupKeys_of_perm {L1 L2 : Ladder} (h : List.Perm L1 L2) (hn : NodupKeys L2) : NodupKeys L1 :=
  ((h.map Prod.fst).nodup_iff).mpr hn

theorem allPos_of_perm {L1 L2 : Ladder} (h : List.Perm L1 L2) (hp : allPos L2) : allPos L1 :=
  fun e he => hp e (h.mem_iff.mp he)

theorem pairwise_ne_of_nodupKeys {L : Ladder} (h : NodupKeys L) :
    L.Pairwise (fun a b => a.1 ≠ b.1) := by
  unfold NodupKeys at h
  exact (List.pairwise_map).mp h

theorem sortAsc_strictAsc (L : Ladder) (h : NodupKeys L) : strictAscKeys (sortAsc L) := by
  have hs : List.Sorted leKey (sortAsc L) := List.sorted_insertionSort leKey L
  have hn : NodupKeys (sortAsc L) := nodupKeys_of_perm (sortAsc_perm L) h
  have hne := pairwise_ne_of_nodupKeys hn
  exact (hs.and hne).imp fun hab => lt_of_le_of_ne hab.1 hab.2

theorem sortDesc_strictDesc (L : Ladder) (h : NodupKeys L) : strictDescKeys (sortDesc L) := by
  have hs : List.Sorted geKey (sortDesc L) := List.sorted_insertionSort geKey L
  have hn : NodupKeys (sortDesc L) := nodupKeys_of_perm (sortDesc_perm L) h
  have hne := pairwise_ne_of_nodupKeys hn
  exact (hs.and hne).imp fun hab => lt_of_le_of_ne hab.1 (Ne.symm hab.2)

theorem strictAscKeys_nodupKeys {L : Ladder} (h : strictAscKeys L) : NodupKeys L :=
  (List.pairwise_map).mpr (h.imp fun hab => ne_of_lt hab)

theorem strictDescKeys_nodupKeys {L : Ladder} (h : strictDescKeys L) : NodupKeys L :=
  (List.pairwise_map).mpr (h.imp fun hab => ne_of_gt hab)

theorem lookupPrice_sortAsc_locSet (L : Ladder) (p s : ℚ) (h : NodupKeys L) :
    lookupPrice (sortAsc (locSet L p s)) p = some s := by
  have h1 := locSet_nodupKeys L p s h
  have h2 : NodupKeys (sortAsc (locSet L p s)) := nodupKeys_of_perm (sortAsc_perm _) h1
  have h3 : (p, s) ∈ sortAsc (locSet L p s) := (sortAsc_perm _).mem_iff.mpr (locSet_mem L p s)
  exact lookupPrice_eq_of_mem _ p s h2 h3

theorem lookupPrice_sortDesc_locSet (L : Ladder) (p s : ℚ) (h : NodupKeys L) :
    lookupPrice (sortDesc (locSet L p s)) p = some s := by
  have h1 := locSet_nodupKeys L p s h
  have h2 : NodupKeys (sortDesc (locSet L p s)) := nodupKeys_of_perm (sortDesc_perm _) h1
  have h3 : (p, s) ∈ sortDesc (locSet L p s) := (sortDesc_perm _).mem_iff.mpr (locSet_mem L p s)
  exact lookupPrice_eq_of_mem _ p s h2 h3

/-- C1: a price-change triple (p, SELL, s) with s > 0 replaces the aggregate
ask size at p absolutely: afterwards the ladder stores exactly s at p, not
q + s; symmetrically a (p, BUY, s) triple on the bid ladder. -/
theorem C1_price_change_absolute_replace (ob : OB.OrderBook) (p q s : ℚ) (ts : String)
    (ha : NodupKeys ob.asks) (hb : NodupKeys ob.bids)
    (hmema : (p, q) ∈ ob.asks) (hq : 0 < q) (hs : 0 < s) :
    lookupPrice (ob.update_from_price_change
        { event_type := "price_change",
          changes := [{ price := p, side := "SELL", size := s }], timestamp := ts }).asks p
      = some s
    ∧ ((p, q) ∈ ob.bids →
        lookupPrice (ob.update_from_price_change
          { event_type := "price_change",
            changes := [{ price := p, side := "BUY", size := s }], timestamp := ts }).bids p
        = some s)
    ∧ q + s ≠ s := by
  have hsne : s ≠ 0 := ne_of_gt hs
  refine ⟨?_, ?_, ?_⟩
  · simp only [OB.OrderBook.update_from_price_change, OB.OrderBook.save_snapshot, applyChange,
      List.foldl_cons, List.foldl_nil]
    simp [hsne]
    exact lookupPrice_sortAsc_locSet ob.asks p s ha
  · intro _
    simp only [OB.OrderBook.update_from_price_change, OB.OrderBook.save_snapshot, applyChange,
      List.foldl_cons, List.foldl_nil]
    simp [hsne]
    exact lookupPrice_sortDesc_locSet ob.bids p s hb
  · intro hqs
    have hq0 : q = 0 := by linarith
    exact absurd hq0 (ne_of_gt hq)

/-- Concrete book and message exercising C1: prices are in integer cents, so
the ask level (40, 100) plays the role of the 0.40 example level.  A SELL
change of size 150 must replace the 100. -/
def c1book : OB.OrderBook :=
  { asks := [((40 : ℚ), 100)], bids := [((40 : ℚ), 80)], asks_history := [], bids_history := [] }

/-- Witness for C1: applying the change leaves exactly size 150 at price 40. -/
theorem C1_price_change_absolute_replace_witness :
    NodupKeys c1book.asks ∧ ((40 : ℚ), (100 : ℚ)) ∈ c1book.asks ∧ (0 : ℚ) < 100 ∧ (0 : ℚ) < 150 ∧
    lookupPrice (c1book.update_from_price_change
        { event_type := "price_change",
          changes := [{ price := (40 : ℚ), side := "SELL", size := 150 }],
          timestamp := "1" }).asks (40 : ℚ)
      = some 150 :=
  ⟨by decide, by decide, by norm_num, by norm_num,
    (C1_price_change_absolute_replace c1book (40 : ℚ) 100 150 "1"
      (by decide) (by decide) (by decide) (by norm_num) (by norm_num)).1⟩

/-- The book message of the C2 counterexample: schema-valid for the feed
(price/size levels, a timestamp), but its ask levels arrive in descending
order.  update_from_book installs the lists verbatim. -/
def c2msg : BookMsg :=
  { event_type := "book"
    asks := [((45 : ℚ), 100), ((40 : ℚ), 50)]
    bids := [((35 : ℚ), 200)]
    timestamp := "1" }

/-- The state one book event away from the empty book. -/
def c2state : OB.OrderBook :=
  { asks := [((45 : ℚ), 100), ((40 : ℚ), 50)]
    bids := [((35 : ℚ), 200)]
    asks_history := [("1", [((45 : ℚ), 100), ((40 : ℚ), 50)])]
    bids_history := [("1", [((35 : ℚ), 200)])] }

/-- C2 counterexample: the state reached from the empty book by one
well-formed book event whose ask list is not ascending violates the claimed
invariant, because update_from_book neither sorts nor filters its input. -/
theorem C2_reachable_invariant_counterexample :
    OB.applyMsgs OB.init [Msg.book c2msg] = some c2state ∧ ¬ strictAscKeys c2state.asks := by
  constructor
  · decide
  · decide

theorem applyChange_wf (a b : Ladder) (c : Change)
    (ha1 : allPos a) (ha2 : NodupKeys a) (hb1 : allPos b) (hb2 : NodupKeys b)
    (hc : 0 ≤ c.size) :
    allPos (applyChange (a, b) c).1 ∧ NodupKeys (applyChange (a, b) c).1 ∧
    allPos (applyChange (a, b) c).2 ∧ NodupKeys (applyChange (a, b) c).2 := by
  unfold applyChange
  by_cases hside : c.side = "SELL"
  · rw [if_pos hside]
    by_cases hz : c.size = 0
    · rw [if_pos hz]
      exact ⟨dropIndex_allPos _ _ ha1, dropIndex_nodupKeys _ _ ha2, hb1, hb2⟩
    · rw [if_neg hz]
      have hpos : 0 < c.size := lt_of_le_of_ne hc (Ne.symm hz)
      exact ⟨locSet_allPos _ _ _ ha1 hpos, locSet_nodupKeys _ _ _ ha2, hb1, hb2⟩
  · rw [if_neg hside]
    by_cases hz : c.size = 0
    · rw [if_pos hz]
      exact ⟨ha1, ha2, dropIndex_allPos _ _ hb1, dropIndex_nodupKeys _ _ hb2⟩
    · rw [if_neg hz]
      have hpos : 0 < c.size := lt_of_le_of_ne hc (Ne.symm hz)
      exact ⟨ha1, ha2, locSet_allPos _ _ _ hb1 hpos, locSet_nodupKeys _ _ _ hb2⟩

theorem foldl_applyChange_wf (cs : List Change) : ∀ a b : Ladder,
    allPos a → NodupKeys a → allPos b → NodupKeys b → (∀ c ∈ cs, 0 ≤ c.size) →
    allPos (cs.foldl applyChange (a, b)).1 ∧ NodupKeys (cs.foldl applyChange (a, b)).1 ∧
    allPos (cs.foldl applyChange (a, b)).2 ∧ NodupKeys (cs.foldl applyChange (a, b)).2 := by
  induction cs with
  | nil => intro a b ha1 ha2 hb1 hb2 _; exact ⟨ha1, ha2, hb1, hb2⟩
  | cons c t ih =>
    intro a b ha1 ha2 hb1 hb2 hall
    have hc := hall c (List.mem_cons_self _ _)
    have hstep := applyChange_wf a b c ha1 ha2 hb1 hb2 hc
    simp only [List.foldl_cons]
    have hrest := ih (applyChange (a, b) c).1 (applyChange (a, b) c).2
      hstep.1 hstep.2.1 hstep.2.2.1 hstep.2.2.2
      (fun c2 hc2 => hall c2 (List.mem_cons_of_mem _ hc2))
    simpa using hrest

theorem update_from_book_inv (ob : OB.OrderBook) (m : BookMsg) (hInv : BookInv ob)
    (hwf : wfMsg (Msg.book m)) :
    ∃ ob2, ob.update_from_book m = some ob2 ∧ BookInv ob2 := by
  obtain ⟨hsa, hsd, hpa, hpb, hne1, hne2⟩ := hwf
  unfold OB.OrderBook.update_from_book
  by_cases ht : m.event_type = "book"
  · rw [if_neg (by simp [ht])]
    rw [if_neg (by simp [List.isEmpty_iff, hne1, hne2])]
    exact ⟨_, rfl, hsa, hsd, hpa, hpb⟩
  · rw [if_pos (by simp [ht])]
    exact ⟨ob, rfl, hInv⟩

theorem update_from_price_change_inv (ob : OB.OrderBook) (m : PriceChangeMsg) (hInv : BookInv ob)
    (hwf : ∀ c ∈ m.changes, 0 ≤ c.size) :
    BookInv (ob.update_from_price_change m) := by
  unfold OB.OrderBook.update_from_price_change
  by_cases ht : m.event_type = "price_change"
  · rw [if_neg (by simp [ht])]
    obtain ⟨hsa, hsd, hpa, hpb⟩ := hInv
    have h := foldl_applyChange_wf m.changes ob.asks ob.bids hpa (strictAscKeys_nodupKeys hsa)
      hpb (strictDescKeys_nodupKeys hsd) hwf
    exact ⟨sortAsc_strictAsc _ h.2.1, sortDesc_strictDesc _ h.2.2.2,
      allPos_of_perm (sortAsc_perm _) h.1, allPos_of_perm (sortDesc_perm _) h.2.2.1⟩
  · rw [if_pos (by simp [ht])]
    exact hInv

theorem applyMsgs_inv (ms : List Msg) : ∀ ob : OB.OrderBook, BookInv ob →
    (∀ m ∈ ms, wfMsg m) → ∃ ob2, OB.applyMsgs ob ms = some ob2 ∧ BookInv ob2 := by
  induction ms with
  | nil => intro ob hInv _; exact ⟨ob, rfl, hInv⟩
  | cons m t ih =>
    intro ob hInv hall
    have hm := hall m (List.mem_cons_self _ _)
    cases m with
    | book bm =>
      obtain ⟨ob2, heq, hInv2⟩ := update_from_book_inv ob bm hInv hm
      obtain ⟨ob3, heq3, hInv3⟩ := ih ob2 hInv2 (fun x hx => hall x (List.mem_cons_of_mem _ hx))
      exact ⟨ob3, by simp [OB.applyMsgs, OB.applyMsg, heq, heq3], hInv3⟩
    | price pm =>
      have hInv2 := update_from_price_change_inv ob pm hInv hm
      obtain ⟨ob3, heq3, hInv3⟩ := ih _ hInv2 (fun x hx => hall x (List.mem_cons_of_mem _ hx))
      exact ⟨ob3, by simp [OB.applyMsgs, OB.applyMsg, heq3], hInv3⟩

/-- C2 (amended): the invariant (asks strictly ascending, bids strictly
descending, no level of non-positive size) holds for every state reachable
from the empty book, provided every applied book event already carries
strictly sorted level lists with strictly positive sizes and nonempty sides,
and every price-change event carries nonnegative sizes.  update_from_book
itself neither sorts nor filters, so the unrestricted claim fails (see the
counterexample). -/
theorem C2_reachable_invariant_amended (ms : List Msg) (h : ∀ m ∈ ms, wfMsg m) :
    ∃ ob, OB.applyMsgs OB.init ms = some ob ∧
      strictAscKeys ob.asks ∧ strictDescKeys ob.bids ∧ allPos ob.asks ∧ allPos ob.bids := by
  have hInit : BookInv OB.init := by decide
  obtain ⟨ob, heq, hInv⟩ := applyMsgs_inv ms OB.init hInit h
  exact ⟨ob, heq, hInv.1, hInv.2.1, hInv.2.2.1, hInv.2.2.2⟩

/-- The book event of the C2 witness sequence. -/
def c2wbook : BookMsg :=
  { event_type := "book"
    asks := [((40 : ℚ), 100), ((45 : ℚ), 50)]
    bids := [((35 : ℚ), 200), ((30 : ℚ), 50)]
    timestamp := "1" }

/-- The price-change event of the C2 witness sequence. -/
def c2wchange : PriceChangeMsg :=
  { event_type := "price_change"
    changes := [{ price := (40 : ℚ), side := "SELL", size := 150 },
                { price := (30 : ℚ), side := "BUY", size := 0 }]
    timestamp := "2" }

/-- The C2 witness event sequence. -/
def c2wmsgs : List Msg := [Msg.book c2wbook, Msg.price c2wchange]

/-- Witness for the amended C2 at a concrete sorted book plus a price-change
touching both sides. -/
theorem C2_reachable_invariant_amended_witness :
    (∀ m ∈ c2wmsgs, wfMsg m) ∧
    ∃ ob, OB.applyMsgs OB.init c2wmsgs = some ob ∧
      strictAscKeys ob.asks ∧ strictDescKeys ob.bids ∧ allPos ob.asks ∧ allPos ob.bids :=
  ⟨by decide, C2_reachable_invariant_amended c2wmsgs (by decide)⟩

/-- The book message of the spec example behind C3, with prices in integer
cents: asks (40,100),(45,50) and bids (35,200). -/
def c3msg : BookMsg :=
  { event_type := "book"
    asks := [((40 : ℚ), 100), ((45 : ℚ), 50)]
    bids := [((35 : ℚ), 200)]
    timestamp := "1" }

/-- C3: on a book with both sides populated, get_spread raises TypeError
instead of returning best ask minus best bid: get_best_ask hands it a bare
numpy float (not the (price, size) tuple its annotation and docstring
promise), and best_ask[0] subscripts that float scalar. -/
theorem C3_get_spread_raises :
    (OB.OrderBook.update_from_book OB.init c3msg).map OB.OrderBook.get_spread
      = some (Except.error "TypeError: numpy.float64 object is not subscriptable") := by
  rfl

/-- A book state whose ask ladder is nonempty but holds only a zero-size
level (reachable, because update_from_book does not filter sizes). -/
def c4state : OB.OrderBook :=
  { asks := [((40 : ℚ), 0)], bids := [], asks_history := [], bids_history := [] }

/-- C4 counterexample: on a nonempty ask ladder with no positive-size level,
get_best_ask returns NaN, the min of an empty selection, and not none as the
claim requires. -/
theorem C4_best_quote_counterexample :
    c4state.get_best_ask = some PyFloat.NaN ∧ some PyFloat.NaN ≠ (none : Option PyFloat) := by
  exact ⟨by decide, by decide⟩

/-- C4 (amended): get_best_ask and get_best_bid return the lowest / highest
price among levels of strictly positive size, and return none when the ladder
is empty; but on a nonempty ladder without any positive-size level they
return NaN rather than none. -/
theorem C4_best_quote_amended (ob : OB.OrderBook) :
    (ob.asks = [] → ob.get_best_ask = none) ∧
    (ob.asks ≠ [] → (ob.asks.filter (fun e => decide (0 < e.2))) = [] →
      ob.get_best_ask = some PyFloat.NaN) ∧
    (∀ m, ob.asks ≠ [] →
      idxMin ((ob.asks.filter (fun e => decide (0 < e.2))).map Prod.fst) = some m →
      ob.get_best_ask = some (PyFloat.val m) ∧
      m ∈ (ob.asks.filter (fun e => decide (0 < e.2))).map Prod.fst ∧
      ∀ q ∈ (ob.asks.filter (fun e => decide (0 < e.2))).map Prod.fst, m ≤ q) ∧
    (ob.bids = [] → ob.get_best_bid = none) ∧
    (ob.bids ≠ [] → (ob.bids.filter (fun e => decide (0 < e.2))) = [] →
      ob.get_best_bid = some PyFloat.NaN) ∧
    (∀ m, ob.bids ≠ [] →
      idxMax ((ob.bids.filter (fun e => decide (0 < e.2))).map Prod.fst) = some m →
      ob.get_best_bid = some (PyFloat.val m) ∧
      m ∈ (ob.bids.filter (fun e => decide (0 < e.2))).map Prod.fst ∧
      ∀ q ∈ (ob.bids.filter (fun e => decide (0 < e.2))).map Prod.fst, q ≤ m) := by
  refine ⟨?_, ?_, ?_, ?_, ?_, ?_⟩
  · intro h
    simp [OB.OrderBook.get_best_ask, OB.bestAskOfLadder, h]
  · intro h1 h2
    simp [OB.OrderBook.get_best_ask, OB.bestAskOfLadder, h1, h2, idxMin]
  · intro m h1 h2
    refine ⟨?_, idxMin_eq_some_mem h2, idxMin_eq_some_le h2⟩
    simp [OB.OrderBook.get_best_ask, OB.bestAskOfLadder, h1, h2]
  · intro h
    simp [OB.OrderBook.get_best_bid, OB.bestBidOfLadder, h]
  · intro h1 h2
    simp [OB.OrderBook.get_best_bid, OB.bestBidOfLadder, h1, h2, idxMax]
  · intro m h1 h2
    refine ⟨?_, idxMax_eq_some_mem h2, idxMax_eq_some_ge h2⟩
    simp [OB.OrderBook.get_best_bid, OB.bestBidOfLadder, h1, h2]

/-- A populated book for the C4 witness. -/
def c4wstate : OB.OrderBook :=
  { asks := [((45 : ℚ), 50), ((40 : ℚ), 100)]
    bids := [((35 : ℚ), 200), ((30 : ℚ), 0)]
    asks_history := [], bids_history := [] }

/-- Witness for the amended C4: the best ask of the concrete book is the
value 40, the lowest positive-size price. -/
theorem C4_best_quote_amended_witness :
    c4wstate.asks ≠ [] ∧
    idxMin ((c4wstate.asks.filter (fun e => decide (0 < e.2))).map Prod.fst) = some 40 ∧
    c4wstate.get_best_ask = some (PyFloat.val 40) :=
  ⟨by decide, by decide,
    ((C4_best_quote_amended c4wstate).2.2.1 40 (by decide) (by decide)).1⟩

/-- A live book with a positive-volume ask side and no bids. -/
def c5state : MT.OrderBook :=
  { asks := [((40 : ℚ), 100)], bids := [], asks_history := [], bids_history := [] }

/-- C5 counterexample: on a book with asks but no bids, the claim requires
the ask-side VWAP (40), but calculate_vwap_mid_price returns none: either
ladder being empty short-circuits before any side VWAP is considered. -/
theorem C5_vwap_mid_counterexample :
    c5state.calculate_vwap_mid_price 1 none = none
      ∧ sideVWAPAsks c5state.asks 1 = some 40 := by
  constructor
  · rfl
  · norm_num [sideVWAPAsks, c5state, idxMin, List.filter]

/-- C5 (amended): the VWAP mid price is none whenever either live ladder is
empty (even if the other side carries positive volume); with both ladders
nonempty it is the combination of the two side VWAPs: the average when both
are defined, the defined one when exactly one is (a side VWAP being undefined
when its threshold-filtered levels are empty or their total volume is not
positive), and none when neither is; and a truthy timestamp whose snapshot is
missing from either history dict yields none. -/
theorem C5_vwap_mid_amended (ob : MT.OrderBook) (t : ℚ) (ts : String) (va vb : ℚ) :
    (ob.asks = [] ∨ ob.bids = [] → ob.calculate_vwap_mid_price t none = none) ∧
    (ob.asks ≠ [] → ob.bids ≠ [] →
      ob.calculate_vwap_mid_price t none
        = combineVWAP (sideVWAPAsks ob.asks t) (sideVWAPBids ob.bids t)) ∧
    (ts ≠ "" → dictGet ob.asks_history ts = none ∨ dictGet ob.bids_history ts = none →
      ob.calculate_vwap_mid_price t (some ts) = none) ∧
    (ob.asks ≠ [] → ob.bids ≠ [] → sideVWAPAsks ob.asks t = some va →
      sideVWAPBids ob.bids t = some vb →
      ob.calculate_vwap_mid_price t none = some ((va + vb) / 2)) ∧
    (ob.asks ≠ [] → ob.bids ≠ [] → sideVWAPAsks ob.asks t = some va →
      sideVWAPBids ob.bids t = none →
      ob.calculate_vwap_mid_price t none = some va) ∧
    (ob.asks ≠ [] → ob.bids ≠ [] → sideVWAPAsks ob.asks t = none →
      sideVWAPBids ob.bids t = some vb →
      ob.calculate_vwap_mid_price t none = some vb) ∧
    (ob.asks ≠ [] → ob.bids ≠ [] → sideVWAPAsks ob.asks t = none →
      sideVWAPBids ob.bids t = none →
      ob.calculate_vwap_mid_price t none = none) := by
  have hlive : ∀ h1 : ob.asks ≠ [], ∀ h2 : ob.bids ≠ [],
      ob.calculate_vwap_mid_price t none
        = combineVWAP (sideVWAPAsks ob.asks t) (sideVWAPBids ob.bids t) := by
    intro h1 h2
    simp [MT.OrderBook.calculate_vwap_mid_price, tsTruthy, List.isEmpty_iff, h1, h2]
  refine ⟨?_, hlive, ?_, ?_, ?_, ?_, ?_⟩
  · intro h
    rcases h with h | h <;>
      simp [MT.OrderBook.calculate_vwap_mid_price, tsTruthy, List.isEmpty_iff, h]
  · intro hts h
    rcases h with h | h
    · simp [MT.OrderBook.calculate_vwap_mid_price, tsTruthy, hts, h]
    · cases hA : dictGet ob.asks_history ts <;>
        simp [MT.OrderBook.calculate_vwap_mid_price, tsTruthy, hts, h, hA]
  · intro h1 h2 hva hvb
    rw [hlive h1 h2, hva, hvb]
    rfl
  · intro h1 h2 hva hvb
    rw [hlive h1 h2, hva, hvb]
    rfl
  · intro h1 h2 hva hvb
    rw [hlive h1 h2, hva, hvb]
    rfl
  · intro h1 h2 hva hvb
    rw [hlive h1 h2, hva, hvb]
    rfl

/-- A populated two-sided book for the C5 witness. -/
def c5wstate : MT.OrderBook :=
  { asks := [((40 : ℚ), 100)], bids := [((35 : ℚ), 300)], asks_history := [], bids_history := [] }

/-- Witness for the amended C5: with both sides present the mid price is the
average of the two side VWAPs. -/
theorem C5_vwap_mid_amended_witness :
    c5wstate.asks ≠ [] ∧ c5wstate.bids ≠ [] ∧
    sideVWAPAsks c5wstate.asks 1 = some 40 ∧ sideVWAPBids c5wstate.bids 1 = some 35 ∧
    c5wstate.calculate_vwap_mid_price 1 none = some ((40 + 35) / 2) :=
  ⟨by decide, by decide,
    by norm_num [sideVWAPAsks, c5wstate, idxMin, List.filter],
    by norm_num [sideVWAPBids, c5wstate, idxMax, List.filter],
    (C5_vwap_mid_amended c5wstate 1 "x" 40 35).2.2.2.1 (by decide) (by decide)
      (by norm_num [sideVWAPAsks, c5wstate, idxMin, List.filter])
      (by norm_num [sideVWAPBids, c5wstate, idxMax, List.filter])⟩

theorem dictGet_mem_keys {α : Type} {d : List (String × α)} {k : String} {v : α}
    (h : dictGet d k = some v) : k ∈ d.map Prod.fst := by
  induction d with
  | nil => simp [dictGet] at h
  | cons e rest ih =>
    by_cases he : e.1 = k
    · simp [he]
    · rw [dictGet, if_neg he] at h
      simp [ih h]

theorem dictGet_filter_keep {α : Type} (d : List (String × α)) (p : String × α → Bool)
    (k : String) (hk : ∀ e ∈ d, e.1 = k → p e = true) :
    dictGet (d.filter p) k = dictGet d k := by
  induction d with
  | nil => simp
  | cons e rest ih =>
    have hrest : ∀ x ∈ rest, x.1 = k → p x = true :=
      fun x hx hxk => hk x (List.mem_cons_of_mem _ hx) hxk
    by_cases he : e.1 = k
    · have hp : p e = true := hk e (List.mem_cons_self _ _) he
      rw [List.filter_cons_of_pos hp, dictGet, dictGet, if_pos he, if_pos he]
    · by_cases hp : p e = true
      · rw [List.filter_cons_of_pos hp, dictGet, dictGet, if_neg he, if_neg he]
        exact ih hrest
      · rw [List.filter_cons_of_neg (by simpa using hp), dictGet, if_neg he]
        exact ih hrest

theorem dictGet_filter_drop {α : Type} (d : List (String × α)) (p : String × α → Bool)
    (k : String) (hk : ∀ e ∈ d, e.1 = k → p e = false) :
    dictGet (d.filter p) k = none := by
  induction d with
  | nil => simp [dictGet]
  | cons e rest ih =>
    have hrest : ∀ x ∈ rest, x.1 = k → p x = false :=
      fun x hx hxk => hk x (List.mem_cons_of_mem _ hx) hxk
    by_cases he : e.1 = k
    · have hp := hk e (List.mem_cons_self _ _) he
      rw [List.filter_cons_of_neg (by simp [hp])]
      exact ih hrest
    · by_cases hp : p e = true
      · rw [List.filter_cons_of_pos hp, dictGet, if_neg he]
        exact ih hrest
      · rw [List.filter_cons_of_neg (by simpa using hp)]
        exact ih hrest

/-- C6: clear_history_before removes exactly the snapshot entries whose
timestamp compares strictly below the cutoff and leaves all others untouched:
a stored snapshot at T survives unchanged whenever T2 ≤ T and is absent
whenever T2 > T. -/
theorem C6_prune_exact (ob : MT.OrderBook) (T T2 : String) (L : Ladder)
    (hsync : ob.asks_history.map Prod.fst = ob.bids_history.map Prod.fst)
    (hT : dictGet ob.asks_history T = some L) :
    (T2 ≤ T →
      (ob.clear_history_before T2).get_order_book_at_timestamp T
        = ob.get_order_book_at_timestamp T ∧
      dictGet (ob.clear_history_before T2).asks_history T = some L) ∧
    (T < T2 →
      (ob.clear_history_before T2).get_order_book_at_timestamp T = (none, none)) ∧
    (ob.clear_history_before T2).asks_history
      = ob.asks_history.filter (fun e => decide (¬ e.1 < T2)) ∧
    (ob.clear_history_before T2).bids_history
      = ob.bids_history.filter (fun e => decide (¬ e.1 < T2)) := by
  have hTkeys : T ∈ ob.asks_history.map Prod.fst := dictGet_mem_keys hT
  have hbids_eq : (ob.clear_history_before T2).bids_history
      = ob.bids_history.filter (fun e => decide (¬ e.1 < T2)) := by
    show ob.bids_history.filter _ = ob.bids_history.filter _
    apply List.filter_congr
    intro e he
    have hmem : e.1 ∈ ob.asks_history.map Prod.fst := by
      rw [hsync]
      exact List.mem_map.mpr ⟨e, he, rfl⟩
    simp [hmem]
  refine ⟨?_, ?_, rfl, hbids_eq⟩
  · intro hle
    have hnot : ¬ T < T2 := not_lt.mpr hle
    have hasks : dictGet (ob.clear_history_before T2).asks_history T
        = dictGet ob.asks_history T := by
      apply dictGet_filter_keep
      intro e _ heT
      simp [heT, hnot]
    have hbids : dictGet (ob.clear_history_before T2).bids_history T
        = dictGet ob.bids_history T := by
      rw [hbids_eq]
      apply dictGet_filter_keep
      intro e _ heT
      simp [heT, hnot]
    constructor
    · show (dictGet _ T, dictGet _ T) = (dictGet _ T, dictGet _ T)
      rw [hasks, hbids]
    · rw [hasks, hT]
  · intro hlt
    have hasks : dictGet (ob.clear_history_before T2).asks_history T = none := by
      apply dictGet_filter_drop
      intro e _ heT
      simp [heT, hlt]
    have hbids : dictGet (ob.clear_history_before T2).bids_history T = none := by
      rw [hbids_eq]
      apply dictGet_filter_drop
      intro e _ heT
      simp [heT, hlt]
    show (dictGet _ T, dictGet _ T) = (none, none)
    rw [hasks, hbids]

/-- A two-snapshot history for the C6 witness. -/
def c6state : MT.OrderBook :=
  { asks := [], bids := []
    asks_history := [("1", [((40 : ℚ), 100)]), ("2", [((45 : ℚ), 50)])]
    bids_history := [("1", [((35 : ℚ), 200)]), ("2", [((30 : ℚ), 60)])] }

/-- Witness for C6: pruning at cutoff "2" keeps the snapshot stored at "2". -/
theorem C6_prune_exact_witness :
    c6state.asks_history.map Prod.fst = c6state.bids_history.map Prod.fst ∧
    dictGet c6state.asks_history "2" = some [((45 : ℚ), 50)] ∧
    dictGet (c6state.clear_history_before "2").asks_history "2" = some [((45 : ℚ), 50)] :=
  ⟨rfl, by decide,
    ((C6_prune_exact c6state "2" "2" [((45 : ℚ), 50)] rfl (by decide)).1 (le_refl _)).2⟩

/-- The book event opening the C7 counterexample run. -/
def c7book : BookMsg :=
  { event_type := "book", asks := [((40 : ℚ), 100)], bids := [((35 : ℚ), 10)], timestamp := "1" }

/-- The price-change event that empties the ask ladder at timestamp "2". -/
def c7change : PriceChangeMsg :=
  { event_type := "price_change"
    changes := [{ price := (40 : ℚ), side := "SELL", size := 0 }]
    timestamp := "2" }

/-- C7 counterexample, on the order_book.py copy: after the book event at "1"
and the price-change at "2" that removes the only ask level, save_snapshot
skips the now-empty ask side, so the ask history holds no column "2" and the
joint snapshot at "2" is absent. -/
theorem C7_snapshot_counterexample :
    (OB.OrderBook.update_from_book OB.init c7book).map
        (fun ob1 =>
          ((OB.OrderBook.update_from_price_change ob1 c7change).asks_history.map Prod.fst,
            (OB.OrderBook.update_from_price_change ob1 c7change).get_order_book_at_timestamp "2"))
      = some (["1"], (none, none)) := by
  decide

theorem dictGet_dictInsert_self {α : Type} (d : List (String × α)) (k : String) (v : α) :
    dictGet (dictInsert d k v) k = some v := by
  induction d with
  | nil => simp [dictInsert, dictGet]
  | cons e rest ih =>
    by_cases he : e.1 = k
    · simp [dictInsert, he, dictGet]
    · simp only [dictInsert, if_neg he, dictGet]
      exact ih

theorem dictGet_dictInsert_ne {α : Type} (d : List (String × α)) (k k2 : String) (v : α)
    (h : k2 ≠ k) : dictGet (dictInsert d k v) k2 = dictGet d k2 := by
  induction d with
  | nil =>
    show dictGet [(k, v)] k2 = none
    rw [dictGet, if_neg (fun hh => h hh.symm)]
    rfl
  | cons e rest ih =>
    by_cases he : e.1 = k
    · rw [dictInsert, if_pos he, dictGet, if_neg (fun hh => h hh.symm), dictGet,
        if_neg (fun hh => h (he ▸ hh).symm)]
    · rw [dictInsert, if_neg he]
      by_cases he2 : e.1 = k2
      · rw [dictGet, if_pos he2, dictGet, if_pos he2]
      · rw [dictGet, if_neg he2, dictGet, if_neg he2]
        exact ih

/-- C7 (amended): in the market_tracker.py copy, every applied book or
price-change event stores a snapshot of both ladders (empty or not) in the
history dicts under the event timestamp, and a snapshot stored under any
other timestamp is left exactly as it was, so no later event mutates it; the
order_book.py copy instead skips a side whose ladder is empty once that
history has rows, losing such snapshots (see the counterexample). -/
theorem C7_snapshot_amended (ob ob2 : MT.OrderBook) (bm : BookMsg) (pm : PriceChangeMsg)
    (ts2 : String)
    (hbt : bm.event_type = "book")
    (hb : MT.OrderBook.update_from_book ob bm = some ob2)
    (hpt : pm.event_type = "price_change")
    (h2 : ts2 ≠ bm.timestamp) (h3 : ts2 ≠ pm.timestamp) :
    (dictGet ob2.asks_history bm.timestamp = some ob2.asks ∧
     dictGet ob2.bids_history bm.timestamp = some ob2.bids ∧
     dictGet ob2.asks_history ts2 = dictGet ob.asks_history ts2 ∧
     dictGet ob2.bids_history ts2 = dictGet ob.bids_history ts2) ∧
    (dictGet (ob.update_from_price_change pm).asks_history pm.timestamp
        = some (ob.update_from_price_change pm).asks ∧
     dictGet (ob.update_from_price_change pm).bids_history pm.timestamp
        = some (ob.update_from_price_change pm).bids ∧
     dictGet (ob.update_from_price_change pm).asks_history ts2 = dictGet ob.asks_history ts2 ∧
     dictGet (ob.update_from_price_change pm).bids_history ts2 = dictGet ob.bids_history ts2) := by
  constructor
  · rw [MT.OrderBook.update_from_book, if_neg (by simp [hbt])] at hb
    by_cases hempty : (bm.asks.isEmpty || bm.bids.isEmpty) = true
    · rw [if_pos hempty] at hb
      exact absurd hb (by simp)
    · rw [if_neg hempty] at hb
      have hob2 : MT.OrderBook.save_snapshot
          { ob with asks := bm.asks, bids := bm.bids } bm.timestamp = ob2 :=
        Option.some.inj hb
      rw [← hob2]
      exact ⟨dictGet_dictInsert_self _ _ _, dictGet_dictInsert_self _ _ _,
        dictGet_dictInsert_ne _ _ _ _ h2, dictGet_dictInsert_ne _ _ _ _ h2⟩
  · rw [MT.OrderBook.update_from_price_change, if_neg (by simp [hpt])]
    exact ⟨dictGet_dictInsert_self _ _ _, dictGet_dictInsert_self _ _ _,
      dictGet_dictInsert_ne _ _ _ _ h3, dictGet_dictInsert_ne _ _ _ _ h3⟩

/-- A starting book with one stored snapshot at "0" for the C7 witness. -/
def c7wstate : MT.OrderBook :=
  { asks := [((45 : ℚ), 5)], bids := [((30 : ℚ), 5)]
    asks_history := [("0", [((45 : ℚ), 5)])]
    bids_history := [("0", [((30 : ℚ), 5)])] }

/-- Witness for the amended C7: the book event at "1" snapshots both ladders
and the price-change at "2" preserves the snapshot stored at "0". -/
theorem C7_snapshot_amended_witness :
    c7book.event_type = "book" ∧ c7change.event_type = "price_change" ∧
    ("0" : String) ≠ c7book.timestamp ∧ ("0" : String) ≠ c7change.timestamp ∧
    ∃ ob2, MT.OrderBook.update_from_book c7wstate c7book = some ob2 ∧
      dictGet ob2.asks_history c7book.timestamp = some ob2.asks ∧
      dictGet (c7wstate.update_from_price_change c7change).asks_history "0"
        = dictGet c7wstate.asks_history "0" := by
  refine ⟨rfl, rfl, by decide, by decide, ?_⟩
  refine ⟨_, rfl, ?_, ?_⟩
  · exact (C7_snapshot_amended c7wstate _ c7book c7change "0" rfl rfl rfl
      (by decide) (by decide)).1.1
  · exact (C7_snapshot_amended c7wstate _ c7book c7change "0" rfl rfl rfl
      (by decide) (by decide)).2.2.2.1

theorem dispatchCbs_no_reconnect (outc : String) (d : Chan.PyData) :
    ∀ cbs : List Chan.Callback, ∀ a ∈ Chan.dispatchCbs outc d cbs,
      Chan.isReconnectAttempt a = false := by
  intro cbs
  induction cbs with
  | nil => intro a ha; simp [Chan.dispatchCbs] at ha
  | cons cb rest ih =>
    intro a ha
    rw [Chan.dispatchCbs] at ha
    rcases List.mem_cons.mp ha with h | h
    · rw [h]; rfl
    · rcases List.mem_append.mp h with h1 | h1
      · by_cases hf : cb.fails d
        · rw [if_pos hf] at h1
          simp only [List.mem_singleton] at h1
          rw [h1]; rfl
        · rw [if_neg hf] at h1
          simp at h1
      · exact ih a h1

theorem processData_no_reconnect (ch : Chan.Channel) (d : Chan.PyData) :
    ∀ a ∈ Chan.processData ch d, Chan.isReconnectAttempt a = false := by
  intro a ha
  cases d with
  | nonDict => simp [Chan.processData] at ha
  | dict aid body =>
    cases aid with
    | none => simp [Chan.processData] at ha
    | some s =>
      simp only [Chan.processData] at ha
      cases hout : dictGet ch.id_to_outcome s with
      | none => simp only [hout] at ha; simp at ha
      | some outc =>
        simp only [hout] at ha
        by_cases ho : outc = ""
        · rw [if_pos ho] at ha; simp at ha
        · rw [if_neg ho] at ha
          cases hcb : dictGet ch.callbacks s with
          | none => simp only [hcb] at ha; simp at ha
          | some cbs =>
            simp only [hcb] at ha
            by_cases hc : cbs.isEmpty
            · rw [if_pos hc] at ha; simp at ha
            · rw [if_neg hc] at ha
              exact dispatchCbs_no_reconnect outc _ cbs a ha

theorem processFrame_no_reconnect (ch : Chan.Channel) (f : Chan.Frame) :
    ∀ a ∈ Chan.processFrame ch f, Chan.isReconnectAttempt a = false := by
  intro a ha
  cases f with
  | parseFail =>
    simp only [Chan.processFrame, List.mem_singleton] at ha
    rw [ha]; rfl
  | single d => exact processData_no_reconnect ch d a ha
  | batch ds =>
    simp only [Chan.processFrame] at ha
    obtain ⟨s, hs, has⟩ := List.mem_flatten.mp ha
    obtain ⟨d, hd, hds⟩ := List.mem_map.mp hs
    exact processData_no_reconnect ch d a (hds ▸ has)

theorem runHandler_no_reconnect (ch : Chan.Channel) :
    ∀ evs : List Chan.RecvEvent, ∀ a ∈ Chan.runHandler ch evs,
      Chan.isReconnectAttempt a = false := by
  intro evs
  induction evs with
  | nil => intro a ha; simp [Chan.runHandler] at ha
  | cons e rest ih =>
    intro a ha
    cases e with
    | closed =>
      rw [Chan.runHandler] at ha
      by_cases hrun : (ch.running && ch.hasSocket) = true
      · rw [if_pos hrun] at ha
        simp only [List.mem_singleton] at ha
        rw [ha]; rfl
      · rw [if_neg hrun] at ha
        simp at ha
    | frame f =>
      rw [Chan.runHandler] at ha
      by_cases hrun : (ch.running && ch.hasSocket) = true
      · rw [if_pos hrun] at ha
        rcases List.mem_append.mp ha with h | h
        · exact processFrame_no_reconnect ch f a h
        · exact ih a h
      · rw [if_neg hrun] at ha
        simp at ha

/-- A concrete running channel with one registered callback. -/
def c8chan : Chan.Channel :=
  { running := true, hasSocket := true
    id_to_outcome := [("a1", "YES")]
    callbacks := [("a1", [{ name := "cb1", fails := fun _ => false }])] }

/-- C8 counterexample: on ConnectionClosed while the manager is running, the
handler merely logs the closure and terminates: it performs zero reconnection
attempts, in particular not the claimed first attempt with a 5 second delay,
and there is no retry, backoff, or Failed state to reach. -/
theorem C8_reconnect_counterexample :
    Chan.runHandler c8chan [Chan.RecvEvent.closed] = [Chan.Action.logClosed] ∧
    (Chan.runHandler c8chan [Chan.RecvEvent.closed]).countP Chan.isReconnectAttempt = 0 := by
  exact ⟨rfl, rfl⟩

/-- C8 (amended): the message handler has no reconnection machinery: on every
receive trace it performs zero reconnection attempts, and once a
ConnectionClosed is observed it stops, so nothing after the closure is
processed and no attempt ever follows it. -/
theorem C8_no_reconnect_amended (ch : Chan.Channel) (evs more : List Chan.RecvEvent) :
    (Chan.runHandler ch (evs ++ Chan.RecvEvent.closed :: more)).countP
        Chan.isReconnectAttempt = 0 ∧
    Chan.runHandler ch (evs ++ Chan.RecvEvent.closed :: more)
      = Chan.runHandler ch (evs ++ [Chan.RecvEvent.closed]) := by
  constructor
  · rw [List.countP_eq_zero]
    intro a ha
    simp [runHandler_no_reconnect ch _ a ha]
  · induction evs with
    | nil =>
      rw [List.nil_append, List.nil_append, Chan.runHandler, Chan.runHandler]
    | cons e rest ih =>
      rw [List.cons_append, List.cons_append]
      cases e with
      | closed => rw [Chan.runHandler, Chan.runHandler]
      | frame f =>
        rw [Chan.runHandler, Chan.runHandler]
        by_cases hrun : (ch.running && ch.hasSocket) = true
        · rw [if_pos hrun, if_pos hrun, ih]
        · rw [if_neg hrun, if_neg hrun]

theorem dispatchCbs_filter_invoke (outc : String) (d : Chan.PyData) :
    ∀ cbs : List Chan.Callback,
      (Chan.dispatchCbs outc d cbs).filter Chan.isInvoke
        = cbs.map (fun cb => Chan.Action.invoke cb.name outc d) := by
  intro cbs
  induction cbs with
  | nil => rfl
  | cons cb rest ih =>
    rw [Chan.dispatchCbs, List.filter_cons_of_pos rfl, List.filter_append, List.map_cons]
    by_cases hf : cb.fails d
    · rw [if_pos hf, List.filter_cons_of_neg (by simp [Chan.isInvoke]), List.filter_nil,
        List.nil_append, ih]
    · rw [if_neg hf, List.filter_nil, List.nil_append, ih]

/-- C9: a callback that raises while handling event A is caught, delivery of
A continues through the remaining callbacks in registration order, and every
callback, the raising one included, is invoked again for the next event B:
over the two dispatches the invocation sequence is exactly the registered
list for A followed by the registered list for B, independently of which
callbacks fail. -/
theorem C9_callback_isolation (ch : Chan.Channel) (aid outc : String)
    (cbs : List Chan.Callback) (bodyA bodyB : String)
    (hrun : (ch.running && ch.hasSocket) = true)
    (hout : dictGet ch.id_to_outcome aid = some outc) (hne : outc ≠ "")
    (hcbs : dictGet ch.callbacks aid = some cbs) (hcbne : cbs.isEmpty = false) :
    (Chan.runHandler ch
        [Chan.RecvEvent.frame (Chan.Frame.single (Chan.PyData.dict (some aid) bodyA)),
         Chan.RecvEvent.frame (Chan.Frame.single (Chan.PyData.dict (some aid) bodyB))]).filter
        Chan.isInvoke
      = cbs.map (fun cb => Chan.Action.invoke cb.name outc (Chan.PyData.dict (some aid) bodyA))
        ++ cbs.map (fun cb => Chan.Action.invoke cb.name outc (Chan.PyData.dict (some aid) bodyB)) := by
  have hpd : ∀ body : String,
      Chan.processData ch (Chan.PyData.dict (some aid) body)
        = Chan.dispatchCbs outc (Chan.PyData.dict (some aid) body) cbs := by
    intro body
    simp only [Chan.processData, hout, hcbs, if_neg hne, hcbne]
    rfl
  rw [Chan.runHandler, if_pos hrun, Chan.runHandler, if_pos hrun, Chan.runHandler]
  simp only [Chan.processFrame, hpd, List.append_nil, List.filter_append,
    dispatchCbs_filter_invoke]

/-- The two callbacks registered in the C9 witness: the first raises on event
A only, the second never raises. -/
def c9cbs : List Chan.Callback :=
  [{ name := "boom", fails := fun d => decide (d = Chan.PyData.dict (some "a1") "A") },
   { name := "ok", fails := fun _ => false }]

/-- The channel of the C9 witness. -/
def c9chan : Chan.Channel :=
  { running := true, hasSocket := true
    id_to_outcome := [("a1", "YES")]
    callbacks := [("a1", c9cbs)] }

/-- Witness for C9: the callback raising on A is still invoked for B, and the
one registered after it still receives A. -/
theorem C9_callback_isolation_witness :
    (c9chan.running && c9chan.hasSocket) = true ∧
    dictGet c9chan.id_to_outcome "a1" = some "YES" ∧ ("YES" : String) ≠ "" ∧
    dictGet c9chan.callbacks "a1" = some c9cbs ∧ c9cbs.isEmpty = false ∧
    (Chan.runHandler c9chan
        [Chan.RecvEvent.frame (Chan.Frame.single (Chan.PyData.dict (some "a1") "A")),
         Chan.RecvEvent.frame (Chan.Frame.single (Chan.PyData.dict (some "a1") "B"))]).filter
        Chan.isInvoke
      = [Chan.Action.invoke "boom" "YES" (Chan.PyData.dict (some "a1") "A"),
         Chan.Action.invoke "ok" "YES" (Chan.PyData.dict (some "a1") "A"),
         Chan.Action.invoke "boom" "YES" (Chan.PyData.dict (some "a1") "B"),
         Chan.Action.invoke "ok" "YES" (Chan.PyData.dict (some "a1") "B")] := by
  refine ⟨rfl, rfl, by decide, rfl, rfl, ?_⟩
  exact C9_callback_isolation c9chan "a1" "YES" c9cbs "A" "B" rfl rfl (by decide) rfl rfl

/-- C10: on any ladder all of whose levels carry strictly positive size, the
get_best_ask of order_book.py and the get_best_ask of market_tracker.py
coincide, and likewise the two get_best_bid: the size filter of the
order_book.py copy removes nothing. -/
theorem C10_best_quote_equivalence (L : Ladder) (h : ∀ e ∈ L, 0 < e.2) :
    OB.bestAskOfLadder L = MT.bestAskOfLadder L
      ∧ OB.bestBidOfLadder L = MT.bestBidOfLadder L := by
  have hfil : L.filter (fun e => decide (0 < e.2)) = L := by
    apply List.filter_eq_self.mpr
    intro a ha
    exact decide_eq_true (h a ha)
  constructor
  · rw [OB.bestAskOfLadder, MT.bestAskOfLadder, hfil]
  · rw [OB.bestBidOfLadder, MT.bestBidOfLadder, hfil]

/-- Witness for C10 on a concrete all-positive ladder. -/
theorem C10_best_quote_equivalence_witness :
    (∀ e ∈ ([((40 : ℚ), 100), ((45 : ℚ), 50)] : Ladder), 0 < e.2) ∧
    OB.bestAskOfLadder [((40 : ℚ), 100), ((45 : ℚ), 50)]
      = MT.bestAskOfLadder [((40 : ℚ), 100), ((45 : ℚ), 50)] ∧
    OB.bestBidOfLadder [((40 : ℚ), 100), ((45 : ℚ), 50)]
      = MT.bestBidOfLadder [((40 : ℚ), 100), ((45 : ℚ), 50)] :=
  ⟨by decide, (C10_best_quote_equivalence _ (by decide)).1,
    (C10_best_quote_equivalence _ (by decide)).2⟩
